import Mathlib

/-!
# Verification of the human-time-to-ISO date/time resolution core

This file gives a shallow embedding, in Lean, of the date/time resolution
logic of the repository:

* `api/parse-date.js` — the variant A HTTP handler (separate date phrase,
  time phrase, mandatory timezone and client-supplied reference instant),
  embedded as `handler`;
* the variant B test mock (`testParseDate` in the mock test script, with a
  combined text, optional reference override and soft fallback), embedded
  as `testParseDate`.

Modelling decisions, stated once here:

* Luxon `DateTime` values in a zone are modelled by `ZDT`: an absolute
  instant (`epoch`, in integer seconds since the Unix epoch) together with
  a fixed UTC offset in minutes (`offset`).  IANA zones are abstracted as
  a map from the zone identifier string to a fixed offset
  (`zoneDB : String → Option Int`); daylight-saving transitions are outside
  the scope of every claim treated here.  An invalid luxon `DateTime` is
  `none : Option ZDT`; JavaScript comparison of an invalid DateTime via
  `valueOf` yields NaN, so every `<` comparison against it is false, which
  `zLtOpt` reproduces.
* The Gregorian calendar arithmetic that JavaScript `Date` / luxon perform
  is embedded by `daysFromCivil` / `civilFromDays` (standard era-based
  civil-calendar conversion) and the validity predicate `validFields`
  reproduces the luxon `fromObject` unit-range checks (month 1-12, day
  1-daysInMonth, hour 0-23 or the accepted 24:00:00 midnight, minute
  0-59, second 0-59, year within the JavaScript Date range).
* JavaScript numbers that may be NaN are modelled as `Option Int` with
  `none` for NaN; in particular `parseInt` applied to an absent regex
  capture group is `none`.  Handing such a NaN to `DateTime.fromObject`
  makes luxon throw an `InvalidArgumentError` before any validation;
  `fromObject` therefore answers in `FromObjectResult` (thrown /
  invalid DateTime / built), and the handler's catch-all maps the
  thrown outcome to the 500 response `Response.internalError`.
* The two time-of-day regexes of the source are embedded character by
  character (first-match scan with greedy quantifiers and backtracking,
  as the JavaScript engine performs on these patterns); `\s` is modelled
  by the ASCII whitespace characters.
* Luxon `DateTime.fromISO` is embedded by `fromISO` for the ISO-8601
  profile `YYYY-MM-DD[THH:MM[:SS][Z|+-HH[[:]MM]]]` (full-string anchored,
  as luxon anchors its patterns); strings outside this profile are treated
  as unparseable.  With `setZone` semantics, a string carrying no offset
  is interpreted in the ambient system zone, modelled by the
  `systemOffset` parameter.
* The external date-phrase parser (chrono-node) is a black box: it is a
  parameter `chronoParse` mapping the phrase and the reference instant
  (the absolute instant passed via `toJSDate`) to a list of `Candidate`
  values, each exposing the six calendar fields and their certainty flags.
* The ambient server wall clock (`DateTime.now()`) is modelled by the
  parameter `serverNow`; variant A never reads it, variant B reads it only
  when no reference override is supplied.
* The ISO rendering of the final instant (`toISO`) is injective on valid
  second-precision instants, so responses carry the resolved `ZDT` itself
  rather than its string image.
-/

/-! ## Gregorian calendar core (day-of-era level, natural numbers) -/

/-- Civil date from a day-of-era index `doe` (0 to 146096, counted from a
400-year era boundary March 1): returns (year-of-era, month, day).  The
century / quadrennium / year-in-quadrennium indices are obtained by
division with a correction term that clamps the final, longer
century/year of the era. -/
def cfdCore (doe : Nat) : Nat × Nat × Nat :=
  let cent := doe / 36524 - doe / 146096
  let doc := doe - 36524 * cent
  let quad := doc / 1461
  let doq := doc - 1461 * quad
  let yir := doq / 365 - doq / 1460
  let doy := doq - 365 * yir
  let yoe := 100 * cent + 4 * quad + yir
  let mp := (5 * doy + 2) / 153
  let d := doy - (153 * mp + 2) / 5 + 1
  let m := if mp < 10 then mp + 3 else mp - 9
  (yoe, m, d)

/-- Gregorian leap-year predicate on a year residue (a civil year is leap
exactly when its residue modulo 400 satisfies this). -/
def leapNat (k : Nat) : Bool :=
  decide (k % 4 = 0) && (decide (k % 100 ≠ 0) || decide (k % 400 = 0))

/-- Leap flag for the civil year containing month `m` of year-of-era
`yoe` (for January and February the civil year is the year-of-era plus
one, since the era is counted from March 1). -/
def leapYoe (yoe m : Nat) : Bool :=
  leapNat ((yoe + (if m ≤ 2 then 1 else 0)) % 400)

/-- Length of month `m` in year-of-era `yoe` (month in civil numbering
1 to 12). -/
def dimCore (yoe m : Nat) : Nat :=
  if m = 2 then (if leapYoe yoe m then 29 else 28)
  else if m = 4 || m = 6 || m = 9 || m = 11 then 30 else 31

/-! ## Gregorian calendar, integer level -/

/-- Calendar date of day `n` counted from the Unix epoch 1970-01-01:
(year, month, day). -/
def civilFromDays (n : Int) : Int × Int × Int :=
  let z := n + 719468
  let era := z / 146097
  let c := cfdCore (z % 146097).toNat
  (era * 400 + ((c.1 + (if c.2.1 ≤ 2 then 1 else 0) : Nat) : Int),
   (c.2.1 : Int), (c.2.2 : Int))

/-- Day index from the Unix epoch of the civil date (y, m, d). -/
def daysFromCivil (y m d : Int) : Int :=
  let yy := if m ≤ 2 then y - 1 else y
  let era := yy / 400
  let yoe := yy - 400 * era
  let doy := (153 * (if 2 < m then m - 3 else m + 9) + 2) / 5 + d - 1
  era * 146097 + (365 * yoe + yoe / 4 - yoe / 100 + doy) - 719468

/-- Gregorian leap-year predicate on integer civil years (the JavaScript
expression year % 4 === 0 && (year % 100 !== 0 || year % 400 === 0);
equality to zero of the remainder agrees between truncating and Euclidean
remainder, so the Euclidean form used here is faithful). -/
def isLeap (y : Int) : Bool :=
  decide (y % 4 = 0) && (decide (y % 100 ≠ 0) || decide (y % 400 = 0))

/-- Days in month `m` of civil year `y` (luxon month-length table). -/
def daysInMonth (y m : Int) : Int :=
  if m = 2 then (if isLeap y then 29 else 28)
  else if m = 4 || m = 6 || m = 9 || m = 11 then 30 else 31

/-- Valid calendar date check (luxon: month 1-12, day 1 to the month
length). -/
def validYMD (y m d : Int) : Bool :=
  decide (1 ≤ m) && decide (m ≤ 12) && decide (1 ≤ d) && decide (d ≤ daysInMonth y m)

/-- The unit-range validity check luxon performs on the six numeric
fields given to `DateTime.fromObject`: calendar date valid, minute 0-59,
second 0-59, the year within the range representable by a JavaScript
Date (every day of a year in this range is representable), and the hour
either 0-23 or exactly 24 with minute and second (and the implicit
millisecond) 0 — luxon's time validator accepts 24:00:00.000, which
`Date.UTC` then rolls over to midnight of the next day. -/
def validFields (y mo d h mi s : Int) : Bool :=
  decide (-271820 ≤ y) && decide (y ≤ 275759) && validYMD y mo d &&
  ((decide (0 ≤ h) && decide (h ≤ 23)) ||
    (decide (h = 24) && decide (mi = 0) && decide (s = 0))) &&
  decide (0 ≤ mi) && decide (mi ≤ 59) && decide (0 ≤ s) && decide (s ≤ 59)

/-! ## Zoned DateTime model -/

/-- A valid luxon `DateTime` in a fixed-offset zone: an absolute instant
in integer seconds since the Unix epoch, plus the zone offset in minutes
east of UTC.  An invalid `DateTime` is represented by `none : Option ZDT`
at use sites. -/
structure ZDT where
  epoch : Int
  offset : Int
deriving DecidableEq, Repr

/-- Local wall-clock seconds since the epoch (epoch shifted by the zone
offset). -/
def ZDT.localSeconds (z : ZDT) : Int := z.epoch + z.offset * 60

/-- Local calendar day index (days since 1970-01-01 in the zone). -/
def ZDT.localDay (z : ZDT) : Int := z.localSeconds / 86400

/-- Seconds elapsed since local midnight. -/
def ZDT.sod (z : ZDT) : Int := z.localSeconds % 86400

/-- Local civil date (year, month, day). -/
def ZDT.ymd (z : ZDT) : Int × Int × Int := civilFromDays z.localDay

/-- Local civil year. -/
def ZDT.year (z : ZDT) : Int := z.ymd.1

/-- Local civil month. -/
def ZDT.month (z : ZDT) : Int := z.ymd.2.1

/-- Local civil day of month. -/
def ZDT.day (z : ZDT) : Int := z.ymd.2.2

/-- Local wall-clock hour. -/
def ZDT.hour (z : ZDT) : Int := z.sod / 3600

/-- Local wall-clock minute. -/
def ZDT.minute (z : ZDT) : Int := z.sod % 3600 / 60

/-- Local wall-clock second. -/
def ZDT.second (z : ZDT) : Int := z.sod % 60

/-- Luxon `dt.plus({days: k})` in a fixed-offset zone: the calendar date
advances by `k` while the wall-clock time is unchanged, which is exactly
a shift of the absolute instant by `k` days of 86400 seconds. -/
def ZDT.plusDays (z : ZDT) (k : Int) : ZDT := ⟨z.epoch + k * 86400, z.offset⟩

/-- The three ways a `DateTime.fromObject` call can end.  `thrown` is an
`InvalidArgumentError` escaping the call: luxon's `normalizeObject`
applies `asNumber` to every present unit value and throws
`Invalid unit value NaN` before any validation when a value is NaN.
`invalid` is the invalid DateTime returned when the numeric units fail
the range validation.  `built z` is a valid DateTime. -/
inductive FromObjectResult where
  | thrown
  | invalid
  | built (z : ZDT)
deriving DecidableEq, Repr

/-- Luxon `DateTime.fromObject({year, month, day, hour, minute, second},
{zone})` in a fixed-offset zone.  The minute argument is an `Option Int`
because the source can feed it `parseInt` of an absent capture group,
i.e. NaN: on a NaN unit value luxon throws (`thrown`).  With all six
fields numbers, an out-of-range combination gives the invalid DateTime
(`invalid`); otherwise the absolute instant is assembled linearly from
the fields, which for the accepted hour-24 midnight makes the epoch land
exactly on midnight of the next day, matching `Date.UTC` rollover. -/
def fromObject (y mo d h : Int) (mi : Option Int) (s : Int) (tzOffset : Int) :
    FromObjectResult :=
  match mi with
  | none => FromObjectResult.thrown
  | some m =>
      if validFields y mo d h m s then
        FromObjectResult.built
          ⟨daysFromCivil y mo d * 86400 + h * 3600 + m * 60 + s - tzOffset * 60,
           tzOffset⟩
      else FromObjectResult.invalid

/-- JavaScript `dt < now` on DateTime values: both are coerced through
`valueOf`, which is NaN for an invalid DateTime, and every comparison
with NaN is false. -/
def zLtOpt (dt now : Option ZDT) : Bool :=
  match dt, now with
  | some a, some b => decide (a.epoch < b.epoch)
  | _, _ => false

/-! ## JavaScript request values -/

/-- A JSON value found in a request body field, as far as the input
validation observes it: either a string or some non-string value. -/
inductive JsVal where
  | str (s : String)
  | notStr
deriving DecidableEq

/-- The body of a variant A request: the four expected fields, each
possibly absent. -/
structure ReqBody where
  humanDate : Option JsVal
  humanTime : Option JsVal
  timeZone : Option JsVal
  clientCurrentTime : Option JsVal
deriving DecidableEq

/-- The check `!x || typeof x !== "string"` performed on each request
field: the field passes exactly when it is a non-empty string, and the
passed string is returned. -/
def fieldOk : Option JsVal → Option String
  | some (JsVal.str s) => if s = "" then none else some s
  | _ => none

/-! ## Time-of-day regex matchers -/

/-- ASCII decimal digit test (regex `\d`). -/
def isDigitChar (c : Char) : Bool := decide ('0' ≤ c) && decide (c ≤ '9')

/-- Numeric value of a digit character. -/
def digitVal (c : Char) : Nat := c.toNat - '0'.toNat

/-- Whitespace test for the regex class `\s` (ASCII part). -/
def isJsSpace (c : Char) : Bool :=
  decide (c = ' ') || decide (c = '\t') || decide (c = '\n') || decide (c = '\r') ||
  decide (c = Char.ofNat 11) || decide (c = Char.ofNat 12)

/-- Greedy `\s*`: drop the longest whitespace prefix.  (No backtracking
is needed before `am`/`pm`, whose first character is never whitespace.) -/
def skipSpaces : List Char → List Char
  | [] => []
  | c :: r => if isJsSpace c then skipSpaces r else c :: r

/-- Case-insensitive `(am|pm)` at the head of the input; `true` is pm. -/
def matchAmPm : List Char → Option Bool
  | c1 :: c2 :: _ =>
      if (c1 = 'a' || c1 = 'A') && (c2 = 'm' || c2 = 'M') then some false
      else if (c1 = 'p' || c1 = 'P') && (c2 = 'm' || c2 = 'M') then some true
      else none
  | [c1] =>
      let _ := c1
      none
  | [] => none

/-- The hour alternatives of greedy `(\d{1,2})`: the two-digit reading
first, then the one-digit reading, as the backtracking engine tries
them. -/
def hourAlts : List Char → List (Nat × List Char)
  | c1 :: c2 :: rest =>
      if isDigitChar c1 && isDigitChar c2 then
        [(digitVal c1 * 10 + digitVal c2, rest), (digitVal c1, c2 :: rest)]
      else if isDigitChar c1 then [(digitVal c1, c2 :: rest)]
      else []
  | [c1] => if isDigitChar c1 then [(digitVal c1, [])] else []
  | [] => []

/-- The alternatives of the greedy optional minute group `(?::(\d{2}))?`:
the participating reading first (a colon followed by exactly two digits),
then the absent reading. -/
def minuteAlts (r : List Char) : List (Option Nat × List Char) :=
  (match r with
   | ':' :: d1 :: d2 :: r2 =>
       if isDigitChar d1 && isDigitChar d2 then
         [(some (digitVal d1 * 10 + digitVal d2), r2)]
       else []
   | _ => []) ++ [(none, r)]

/-- Attempt of the 12-hour pattern `(\d{1,2})(?::(\d{2}))?\s*(am|pm)` at
one start position: hour digits, optional minutes, whitespace, am/pm,
with the backtracking order of the JavaScript engine. -/
def match12At (s : List Char) : Option (Nat × Option Nat × Bool) :=
  (hourAlts s).findSome? fun hr =>
    (minuteAlts hr.2).findSome? fun mr =>
      match matchAmPm (skipSpaces mr.2) with
      | some pm => some (hr.1, mr.1, pm)
      | none => none

/-- First match of the 12-hour pattern: the scan tries every start
position left to right, as `String.prototype.match` does. -/
def match12 : List Char → Option (Nat × Option Nat × Bool)
  | [] => none
  | c :: rest =>
      match match12At (c :: rest) with
      | some r => some r
      | none => match12 rest

/-- Attempt of the bare pattern `(\d{1,2})(?::(\d{2}))?` at one start
position (nothing follows the optional group, so the greedy readings
never backtrack). -/
def match24At (s : List Char) : Option (Nat × Option Nat) :=
  match s with
  | c1 :: c2 :: rest =>
      if isDigitChar c1 && isDigitChar c2 then some (digitVal c1 * 10 + digitVal c2, takeMin rest)
      else if isDigitChar c1 then some (digitVal c1, takeMin (c2 :: rest))
      else none
  | [c1] => if isDigitChar c1 then some (digitVal c1, none) else none
  | [] => none
where
  /-- The optional `:(\d{2})` group after the hour. -/
  takeMin : List Char → Option Nat
  | ':' :: d1 :: d2 :: _ =>
      if isDigitChar d1 && isDigitChar d2 then some (digitVal d1 * 10 + digitVal d2)
      else none
  | _ => none

/-- First match of the bare 24-hour pattern. -/
def match24 : List Char → Option (Nat × Option Nat)
  | [] => none
  | c :: rest =>
      match match24At (c :: rest) with
      | some r => some r
      | none => match24 rest

/-- The time-of-day parsing block of the handler (lines 139-168 of
api/parse-date.js): try the 12-hour pattern; on a match take the hour,
default the minute to 0, and convert to 24-hour form (pm adds 12 unless
the hour is 12, am zeroes hour 12).  Otherwise try the bare 24-hour
pattern, taking the hour digits and `parseInt` of the minute capture —
which is NaN (`none`) when the capture is absent.  Otherwise fail.  The
second component is always the initial 0 of the source.  Returns
(hour, minute, second). -/
def parseTimePhrase (humanTime : String) : Option (Int × Option Int × Int) :=
  match match12 humanTime.toList with
  | some (h, m, pm) =>
      let minute : Nat := match m with | some v => v | none => 0
      let hour : Nat := if pm && decide (h ≠ 12) then h + 12
                        else if !pm && decide (h = 12) then 0 else h
      some ((hour : Int), some (minute : Int), 0)
  | none =>
      match match24 humanTime.toList with
      | some (h, m) => some ((h : Int), m.map (fun v => (v : Int)), 0)
      | none => none

/-! ## ISO-8601 reference-instant parsing -/

/-- The zone information carried by an ISO string: none at all (the
system default zone applies), Z (UTC), or a fixed offset in minutes. -/
inductive IsoZone where
  | loc
  | utc
  | off (minutes : Int)
deriving DecidableEq

/-- The result of parsing an ISO instant string: the six wall-clock
fields and the zone designator the string carries. -/
structure IsoParse where
  year : Int
  month : Int
  day : Int
  hour : Int
  minute : Int
  second : Int
  zone : IsoZone
deriving DecidableEq

/-- Exactly two digits from the head of the input. -/
def read2 : List Char → Option (Nat × List Char)
  | a :: b :: r =>
      if isDigitChar a && isDigitChar b then some (digitVal a * 10 + digitVal b, r)
      else none
  | _ => none

/-- Exactly four digits from the head of the input. -/
def read4 (s : List Char) : Option (Nat × List Char) :=
  match read2 s with
  | some (hi, r) =>
      match read2 r with
      | some (lo, r2) => some (hi * 100 + lo, r2)
      | none => none
  | none => none

/-- The tail of an ISO string after the time part: empty (no zone
designator), a final Z, or a sign followed by HH, HH:MM or HHMM. -/
def finishZone : List Char → Option IsoZone
  | [] => some IsoZone.loc
  | ['Z'] => some IsoZone.utc
  | c :: r =>
      if c = '+' || c = '-' then
        match read2 r with
        | some (hh, r2) =>
            let sign : Int := if c = '+' then 1 else -1
            match r2 with
            | [] => some (IsoZone.off (sign * (hh * 60)))
            | ':' :: r3 =>
                match read2 r3 with
                | some (mm, []) => some (IsoZone.off (sign * (hh * 60 + mm)))
                | _ => none
            | _ =>
                match read2 r2 with
                | some (mm, []) => some (IsoZone.off (sign * (hh * 60 + mm)))
                | _ => none
        | none => none
      else none

/-- The optional seconds field of the ISO time part followed by the zone
designator. -/
def finishSecondsZone : List Char → Option (Nat × IsoZone)
  | ':' :: r =>
      match read2 r with
      | some (ss, r2) =>
          match finishZone r2 with
          | some z => some (ss, z)
          | none => none
      | none => none
  | r =>
      match finishZone r with
      | some z => some (0, z)
      | none => none

/-- Luxon `DateTime.fromISO` restricted to the anchored profile
`YYYY-MM-DD[THH:MM[:SS][Z|+-HH[[:]MM]]]`; strings outside the profile
are treated as unparseable.  A date-only string gets midnight and no
zone designator.  Only the syntax is checked here — the range validity
of the fields is checked afterwards, as luxon separates matching from
validation. -/
def fromISO (str : String) : Option IsoParse :=
  match read4 str.toList with
  | none => none
  | some (y, r1) =>
      match r1 with
      | '-' :: r2 =>
          match read2 r2 with
          | none => none
          | some (mo, r3) =>
              match r3 with
              | '-' :: r4 =>
                  match read2 r4 with
                  | none => none
                  | some (d, r5) =>
                      match r5 with
                      | [] => some ⟨y, mo, d, 0, 0, 0, IsoZone.loc⟩
                      | 'T' :: r6 =>
                          match read2 r6 with
                          | none => none
                          | some (hh, r7) =>
                              match r7 with
                              | ':' :: r8 =>
                                  match read2 r8 with
                                  | none => none
                                  | some (mi, r9) =>
                                      match finishSecondsZone r9 with
                                      | none => none
                                      | some (ss, z) => some ⟨y, mo, d, hh, mi, ss, z⟩
                              | _ => none
                      | _ => none
              | _ => none
      | _ => none

/-- The offset, in minutes, that an ISO zone designator denotes, given
the ambient system zone offset used when the string carries none. -/
def isoOffsetOf (z : IsoZone) (systemOffset : Int) : Int :=
  match z with
  | IsoZone.loc => systemOffset
  | IsoZone.utc => 0
  | IsoZone.off o => o

/-- The reference-instant resolution step of the handler (lines 77-99 of
api/parse-date.js): `DateTime.fromISO(clientCurrentTime, {setZone: true})`
— parse preserving the offset the string carries, reject when invalid —
followed by `.setZone(timeZone)`, which re-expresses the same absolute
instant in the target zone.  `none` is the invalid-DateTime outcome. -/
def resolveReference (cct : String) (tzOffset systemOffset : Int) : Option ZDT :=
  match fromISO cct with
  | none => none
  | some p =>
      if validFields p.year p.month p.day p.hour p.minute p.second then
        some ⟨daysFromCivil p.year p.month p.day * 86400 +
                p.hour * 3600 + p.minute * 60 + p.second -
                isoOffsetOf p.zone systemOffset * 60,
              tzOffset⟩
      else none

/-! ## Date-phrase parser interface and the variant A handler -/

/-- One candidate produced by the external date-phrase parser: the six
calendar field getters and the six certainty flags (chrono-node
`ParsedComponents.get` / `isCertain`). -/
structure Candidate where
  year : Int
  month : Int
  day : Int
  hour : Int
  minute : Int
  second : Int
  certYear : Bool
  certMonth : Bool
  certDay : Bool
  certHour : Bool
  certMinute : Bool
  certSecond : Bool
deriving DecidableEq

/-- The failure classes of a variant A response, one per distinct error
produced by the handler (each corresponds verbatim to one error string of
the source: the four per-field input validation messages, the invalid
timezone message, the invalid clientCurrentTime format message, the
could-not-parse-date message, the could-not-parse-time message, and the
invalid-date-generated message). -/
inductive ErrKind where
  | missingHumanDate
  | missingHumanTime
  | missingTimeZone
  | missingClientCurrentTime
  | invalidTimezone
  | invalidClientCurrentTime
  | couldNotParseDate
  | couldNotParseTime
  | invalidDateGenerated
deriving DecidableEq

/-- A variant A response: the OPTIONS preflight success, the
method-not-allowed rejection, a 400 rejection with its error class, the
500 Internal-server-error answered by the catch-all of lines 207-213
when an exception escapes the try block (in this handler, exactly the
`InvalidArgumentError` luxon throws from `fromObject` on a NaN unit
value), or the success payload (the resolved instant together with the
echoed request fields). -/
inductive Response where
  | options
  | methodNotAllowed
  | badRequest (error : ErrKind)
  | internalError
  | ok (convertedDate : ZDT) (timeZone humanDate humanTime clientCurrentTime : String)
deriving DecidableEq

/-- ASCII lower-casing of one character. -/
def lowerChar (c : Char) : Char :=
  if 'A' ≤ c ∧ c ≤ 'Z' then Char.ofNat (c.toNat + 32) else c

/-- ASCII `String.prototype.toLowerCase` (sufficient for the comparison
against the all-ASCII literal the source performs). -/
def toLowerAscii (s : String) : String := String.mk (s.toList.map lowerChar)

/-- The candidate the handler fabricates for the date phrase "tomorrow":
every field is the corresponding field of the reference instant advanced
by one day, and every certainty flag answers true. -/
def tomorrowCandidate (nowZoned : ZDT) : Candidate :=
  let tomorrow := nowZoned.plusDays 1
  { year := tomorrow.year, month := tomorrow.month, day := tomorrow.day,
    hour := tomorrow.hour, minute := tomorrow.minute, second := tomorrow.second,
    certYear := true, certMonth := true, certDay := true,
    certHour := true, certMinute := true, certSecond := true }

/-- The first candidate list the handler works from: the fabricated
all-certain candidate one day past the reference instant when the date
phrase is (case-insensitively) "tomorrow" (lines 104-127 of
api/parse-date.js), otherwise whatever `chrono.parse` returns for the
phrase and the reference instant. -/
def dateCandidates (chronoParse : String → Int → List Candidate)
    (humanDate : String) (nowZoned : ZDT) : List Candidate :=
  if toLowerAscii humanDate = "tomorrow" then [tomorrowCandidate nowZoned]
  else chronoParse humanDate nowZoned.epoch

/-- The field-combination tail of the handler (lines 170-205 of
api/parse-date.js), given the first candidate and the parsed time:
build the instant from the candidate date fields and the explicit time
fields in the target zone.  When `fromObject` throws (NaN minute) the
exception escapes to the catch-all of line 207 and the response is the
500 internal error.  When it returns the invalid DateTime, the
comparison `dt < nowZoned` is false (NaN valueOf), the roll-forward is
skipped, and the `!dt.isValid` check of line 191 answers the
invalid-date-generated rejection.  When it returns a valid instant: if
day, month and year are all uncertain and the instant lies strictly
before the reference instant, advance it by one day (still valid);
answer with the instant. -/
def combineFields (start : Candidate) (hour : Int) (minute : Option Int)
    (sec : Int) (tzOffset : Int) (nowZoned : ZDT)
    (tz hd ht cct : String) : Response :=
  match fromObject start.year start.month start.day hour minute sec tzOffset with
  | FromObjectResult.thrown => Response.internalError
  | FromObjectResult.invalid => Response.badRequest ErrKind.invalidDateGenerated
  | FromObjectResult.built z =>
      let onlyTimeSpecified := !start.certDay && !start.certMonth && !start.certYear
      if onlyTimeSpecified && decide (z.epoch < nowZoned.epoch) then
        Response.ok (z.plusDays 1) tz hd ht cct
      else Response.ok z tz hd ht cct

/-- The variant A handler of api/parse-date.js, from the method check to
the response.  `zoneDB` abstracts the IANA registry (`IANAZone.isValidZone`
succeeds exactly on its domain), `chronoParse` the external date-phrase
parser, `systemOffset` the ambient system zone used for ISO strings that
carry no offset, and `serverNow` the ambient wall clock `DateTime.now()`
— which this handler never reads. -/
def handler (zoneDB : String → Option Int)
    (chronoParse : String → Int → List Candidate)
    (systemOffset serverNow : Int) (method : String) (body : ReqBody) : Response :=
  let _ := serverNow
  if method = "OPTIONS" then Response.options
  else if method ≠ "POST" then Response.methodNotAllowed
  else
    match fieldOk body.humanDate with
    | none => Response.badRequest ErrKind.missingHumanDate
    | some humanDate =>
        match fieldOk body.humanTime with
        | none => Response.badRequest ErrKind.missingHumanTime
        | some humanTime =>
            match fieldOk body.timeZone with
            | none => Response.badRequest ErrKind.missingTimeZone
            | some timeZone =>
                match fieldOk body.clientCurrentTime with
                | none => Response.badRequest ErrKind.missingClientCurrentTime
                | some cct =>
                    match zoneDB timeZone with
                    | none => Response.badRequest ErrKind.invalidTimezone
                    | some tzOffset =>
                        match resolveReference cct tzOffset systemOffset with
                        | none => Response.badRequest ErrKind.invalidClientCurrentTime
                        | some nowZoned =>
                            match dateCandidates chronoParse humanDate nowZoned with
                            | [] => Response.badRequest ErrKind.couldNotParseDate
                            | start :: _ =>
                                match parseTimePhrase humanTime with
                                | none => Response.badRequest ErrKind.couldNotParseTime
                                | some (hour, minute, sec) =>
                                    combineFields start hour minute sec tzOffset
                                      nowZoned timeZone humanDate humanTime cct

/-! ## Variant B (combined text, soft fallback) -/

/-- A variant B result: either the soft fallback (the reference instant
echoed as convertedDate together with the explanatory message) or the
normal payload.  Variant B never checks validity before rendering, so
its convertedDate may be the invalid DateTime (rendered as null), hence
the `Option`. -/
inductive BResult where
  | fallback (convertedDate : Option ZDT)
  | ok (convertedDate : Option ZDT) (timeZone : String) (originalText : String)
deriving DecidableEq

/-- The reference instant of variant B: the `now` override parsed with
zone preservation and converted to the target zone when supplied, the
ambient wall clock in the target zone otherwise; invalid whenever the
zone is unknown or the override fails to parse. -/
def bNowZoned (zoneDB : String → Option Int) (systemOffset serverNow : Int)
    (timeZone : String) (now : Option String) : Option ZDT :=
  match zoneDB timeZone with
  | none => none
  | some tzOffset =>
      match now with
      | none => some ⟨serverNow, tzOffset⟩
      | some s => resolveReference s tzOffset systemOffset

/-- The variant B operation (`testParseDate` of the mock test script):
parse the combined text against the reference instant; when the parser
returns no candidate, fall back to answering the reference instant
itself with an explanatory message; otherwise combine the candidate date
fields with the candidate time fields (each taken only when certain,
else 0), apply the same time-only roll-forward rule, and answer without
any validity check.  Here the minute handed to `fromObject` is always a
number, so the thrown outcome is unreachable (the `_` arm below);
out-of-range fields give the invalid DateTime, carried as `none`. -/
def testParseDate (zoneDB : String → Option Int)
    (chronoParseB : String → Option Int → List Candidate)
    (systemOffset serverNow : Int) (text timeZone : String)
    (now : Option String) : BResult :=
  let nowZoned := bNowZoned zoneDB systemOffset serverNow timeZone now
  let results := chronoParseB text (nowZoned.map ZDT.epoch)
  match results with
  | [] => BResult.fallback nowZoned
  | start :: _ =>
      let hour := if start.certHour then start.hour else 0
      let minute := if start.certMinute then start.minute else 0
      let sec := if start.certSecond then start.second else 0
      let dt0 :=
        match zoneDB timeZone with
        | none => none
        | some tzOffset =>
            match fromObject start.year start.month start.day hour (some minute)
                sec tzOffset with
            | FromObjectResult.built z => some z
            | _ => none
      let onlyTimeSpecified := !start.certDay && !start.certMonth && !start.certYear
      let dt := if onlyTimeSpecified && zLtOpt dt0 nowZoned then
                  dt0.map (fun z => z.plusDays 1)
                else dt0
      BResult.ok dt timeZone text

/-! ## Concrete sample environment used by the witnesses -/

/-- A concrete fixed-offset abstraction of the IANA registry for the
witnesses: America/Chicago at its standard offset and UTC. -/
def sampleZoneDB : String → Option Int := fun s =>
  if s = "America/Chicago" then some (-360)
  else if s = "UTC" then some 0
  else none

/-- A date-phrase oracle that recognises nothing. -/
def emptyChrono : String → Int → List Candidate := fun _ _ => []

/-- A candidate resolving to 2024-01-15 15:00:00 with every field
uncertain, as chrono produces for a pure time-of-day phrase. -/
def timeOnlyCand : Candidate :=
  { year := 2024, month := 1, day := 15, hour := 15, minute := 0, second := 0,
    certYear := false, certMonth := false, certDay := false,
    certHour := true, certMinute := false, certSecond := false }

/-- A date-phrase oracle answering `timeOnlyCand` for every phrase. -/
def timeOnlyChrono : String → Int → List Candidate := fun _ _ => [timeOnlyCand]

/-- The same candidate with the day marked certain, as chrono produces
for an explicit date. -/
def certainDayCand : Candidate :=
  { timeOnlyCand with certDay := true }

/-- A date-phrase oracle answering `certainDayCand` for every phrase. -/
def certainDayChrono : String → Int → List Candidate := fun _ _ => [certainDayCand]

/-- The time-only candidate with different hour/minute/second guesses
and different time certainty flags (same date fields and date
certainty). -/
def altTimeCand : Candidate :=
  { timeOnlyCand with
      hour := 3, minute := 44, second := 55,
      certHour := false, certMinute := true, certSecond := true }

/-- A date-phrase oracle answering `altTimeCand` for every phrase. -/
def altTimeChrono : String → Int → List Candidate := fun _ _ => [altTimeCand]

/-- A candidate naming the invalid calendar date February 30. -/
def feb30Cand : Candidate := { timeOnlyCand with month := 2, day := 30 }

/-- A date-phrase oracle answering `feb30Cand` for every phrase. -/
def feb30Chrono : String → Int → List Candidate := fun _ _ => [feb30Cand]

/-- A well-formed request body used by several witnesses. -/
def sampleBody (hd ht : String) : ReqBody :=
  { humanDate := some (JsVal.str hd), humanTime := some (JsVal.str ht),
    timeZone := some (JsVal.str "UTC"),
    clientCurrentTime := some (JsVal.str "2024-01-15T15:00:00Z") }

/-! ## Calendar correctness -/

/-- Start-of-year day-of-era, expanded through the century and
quadrennium indices. -/
theorem yoe_div_sum (cent quad yir yoe : Nat) (h1 : cent ≤ 3) (h2 : quad ≤ 24)
    (h3 : yir ≤ 3) (h4 : yoe = 100 * cent + 4 * quad + yir) :
    365 * yoe + yoe / 4 - yoe / 100 = 36524 * cent + 1461 * quad + 365 * yir := by
  omega

/-- Month-extraction facts for a day-of-year below 366: the month index,
the start-of-month offset and the day-of-month bounds. -/
theorem month_facts (doy mp ms : Nat) (h : doy ≤ 365) (hmp : mp = (5 * doy + 2) / 153)
    (hms : ms = (153 * mp + 2) / 5) :
    mp ≤ 11 ∧ ms ≤ doy ∧
    (mp < 10 → doy - ms + 1 ≤ dimCore 0 (mp + 3)) ∧
    (mp = 10 → doy - ms + 1 ≤ 31) ∧
    (mp = 11 → doy - ms + 1 ≤ 29 ∧ ms = 337) := by
  have hb : mp ≤ 11 := by omega
  refine ⟨hb, by omega, ?_, by omega, by omega⟩
  intro hlt
  interval_cases mp <;> simp [dimCore] <;> omega

/-- A year-of-era whose final day is day 365 is leap. -/
theorem leap_of_365 (cent quad yir yoe : Nat)
    (h1 : cent ≤ 3) (h2 : quad ≤ 24) (h3 : yir = 3)
    (h4 : yoe = 100 * cent + 4 * quad + yir)
    (h5 : quad = 24 → cent = 3) :
    leapYoe yoe 2 = true := by
  simp only [leapYoe, leapNat, decide_eq_true_eq, Bool.and_eq_true, Bool.or_eq_true]
  norm_num
  omega

/-- Month lengths do not depend on the year outside February. -/
theorem dimCore_irrel (yoe yoe2 m : Nat) (hm : m ≠ 2) :
    dimCore yoe m = dimCore yoe2 m := by
  unfold dimCore
  rw [if_neg hm, if_neg hm]

/-- Correctness package for `cfdCore` on one era: the extracted
year-of-era, month and day are in range (including the leap-sensitive
February bound) and reconstruct the given day-of-era exactly. -/
theorem cfdCore_spec (doe : Nat) (h : doe ≤ 146096) :
    ∃ yoe m d mp ms,
      cfdCore doe = (yoe, m, d) ∧ yoe ≤ 399 ∧
      1 ≤ m ∧ m ≤ 12 ∧ 1 ≤ d ∧ d ≤ dimCore yoe m ∧
      (m ≤ 2 → mp = m + 9) ∧ (2 < m → mp = m - 3) ∧ mp ≤ 11 ∧
      ms = (153 * mp + 2) / 5 ∧ ms + (d - 1) ≤ 365 ∧
      365 * yoe + yoe / 4 - yoe / 100 + (ms + (d - 1)) = doe := by
  obtain ⟨cent, hcent⟩ : ∃ c, c = doe / 36524 - doe / 146096 := ⟨_, rfl⟩
  obtain ⟨doc, hdoc⟩ : ∃ x, x = doe - 36524 * cent := ⟨_, rfl⟩
  have s1 : cent ≤ 3 ∧ doe = 36524 * cent + doc ∧ doc ≤ 36524 ∧
      (doc = 36524 → cent = 3) := by omega
  obtain ⟨quad, hquad⟩ : ∃ q, q = doc / 1461 := ⟨_, rfl⟩
  obtain ⟨doq, hdoq⟩ : ∃ x, x = doc - 1461 * quad := ⟨_, rfl⟩
  have s2 : quad ≤ 24 ∧ doc = 1461 * quad + doq ∧ doq ≤ 1460 ∧
      (doq = 1460 → quad = 24 → doc = 36524) := by
    clear hcent hdoc
    omega
  obtain ⟨yir, hyir⟩ : ∃ r, r = doq / 365 - doq / 1460 := ⟨_, rfl⟩
  obtain ⟨doy, hdoy⟩ : ∃ x, x = doq - 365 * yir := ⟨_, rfl⟩
  have s3 : yir ≤ 3 ∧ doq = 365 * yir + doy ∧ doy ≤ 365 ∧
      (doy = 365 → yir = 3 ∧ doq = 1460) := by
    clear hcent hdoc hquad hdoq s1
    omega
  obtain ⟨yoe, hyoe⟩ : ∃ y, y = 100 * cent + 4 * quad + yir := ⟨_, rfl⟩
  obtain ⟨mp, hmp⟩ : ∃ x, x = (5 * doy + 2) / 153 := ⟨_, rfl⟩
  obtain ⟨ms, hms⟩ : ∃ x, x = (153 * mp + 2) / 5 := ⟨_, rfl⟩
  obtain ⟨d, hd⟩ : ∃ x, x = doy - ms + 1 := ⟨_, rfl⟩
  obtain ⟨m, hm⟩ : ∃ x, x = if mp < 10 then mp + 3 else mp - 9 := ⟨_, rfl⟩
  have hcfd : cfdCore doe = (yoe, m, d) := by
    unfold cfdCore
    dsimp only
    rw [← hcent, ← hdoc, ← hquad, ← hdoq, ← hyir, ← hdoy, ← hyoe, ← hmp, ← hms, ← hd, ← hm]
  have hmo := month_facts doy mp ms s3.2.2.1 hmp hms
  have hSyoe := yoe_div_sum cent quad yir yoe s1.1 s2.1 s3.1 hyoe
  have hleap : doy = 365 → leapYoe yoe 2 = true := by
    intro h365
    refine leap_of_365 cent quad yir yoe s1.1 s2.1 (s3.2.2.2 h365).1 hyoe ?_
    intro hq24
    exact s1.2.2.2 (s2.2.2.2 (s3.2.2.2 h365).2 hq24)
  have hm2 : (mp < 10 ∧ m = mp + 3) ∨ (10 ≤ mp ∧ m = mp - 9) := by
    rcases Nat.lt_or_ge mp 10 with hlt | hge
    · exact Or.inl ⟨hlt, by rw [hm, if_pos hlt]⟩
    · exact Or.inr ⟨hge, by rw [hm, if_neg (by omega)]⟩
  clear hcent hdoc hquad hdoq hyir hdoy hmp hm h
  have hdim : d ≤ dimCore yoe m := by
    rcases hm2 with ⟨hlt, hmeq⟩ | ⟨hge, hmeq⟩
    · rw [hmeq, dimCore_irrel yoe 0 (mp + 3) (by omega)]
      have := hmo.2.2.1 hlt
      omega
    · have hmp11 : mp = 10 ∨ mp = 11 := by omega
      rcases hmp11 with h10 | h11
      · have hm1 : m = 1 := by omega
        rw [hm1]
        have : dimCore yoe 1 = 31 := by simp [dimCore]
        rw [this]
        have := hmo.2.2.2.1 h10
        omega
      · have hmeq2 : m = 2 := by omega
        rw [hmeq2]
        have hms337 := (hmo.2.2.2.2 h11).2
        have hd29 := (hmo.2.2.2.2 h11).1
        unfold dimCore
        rw [if_pos rfl]
        by_cases hL : leapYoe yoe 2 = true
        · rw [hL, if_pos rfl]
          omega
        · have hLf : leapYoe yoe 2 = false := by
            cases hview : leapYoe yoe 2
            · rfl
            · exact absurd hview hL
          rw [hLf]
          norm_num
          by_cases h365 : doy = 365
          · exact absurd (hleap h365) hL
          · omega
  refine ⟨yoe, m, d, mp, ms, hcfd, by omega, by omega, by omega, by omega, hdim,
    by omega, by omega, hmo.1, hms, by omega, by omega⟩

/-- Era-shift invariance of the integer leap-year test: only the year
residue modulo 400 matters. -/
theorem isLeap_shift (era : Int) (k : Nat) :
    isLeap (era * 400 + (k : Int)) = leapNat (k % 400) := by
  have hbool : ∀ b c : Bool, (b = true ↔ c = true) → b = c := by decide
  apply hbool
  simp only [isLeap, leapNat, decide_eq_true_eq, Bool.and_eq_true, Bool.or_eq_true]
  constructor
  · intro hv
    omega
  · intro hv
    omega

/-- The integer month-length table agrees with the year-of-era table at
the year the era reconstruction produces. -/
theorem daysInMonth_dimCore (era : Int) (yoe m : Nat) (hm1 : 1 ≤ m) (hm12 : m ≤ 12)
    (hy : yoe ≤ 399) :
    daysInMonth (era * 400 + ((yoe + (if m ≤ 2 then 1 else 0) : Nat) : Int)) (m : Int) =
      (dimCore yoe m : Int) := by
  unfold daysInMonth dimCore leapYoe
  by_cases h2 : m = 2
  · subst h2
    norm_num
    have ecast : era * 400 + ((yoe : Int) + 1) = era * 400 + ((yoe + 1 : Nat) : Int) := by
      push_cast
      ring
    rw [ecast, isLeap_shift era (yoe + 1)]
  · have h2i : ((m : Nat) : Int) ≠ 2 := by
      intro hc
      exact h2 (by exact_mod_cast hc)
    rw [if_neg h2i, if_neg h2]
    by_cases h46 : m = 4 ∨ m = 6 ∨ m = 9 ∨ m = 11
    · have hL : ((m : Nat) : Int) = 4 ∨ ((m : Nat) : Int) = 6 ∨
          ((m : Nat) : Int) = 9 ∨ ((m : Nat) : Int) = 11 := by
        rcases h46 with h | h | h | h <;> subst h <;> norm_num
      have e1 : ((m : Int) = 4 || (m : Int) = 6 || (m : Int) = 9 || (m : Int) = 11) = true := by
        simp only [Bool.or_eq_true, decide_eq_true_eq]
        tauto
      have e2 : ((m : Nat) = 4 || m = 6 || m = 9 || m = 11) = true := by
        simp only [Bool.or_eq_true, decide_eq_true_eq]
        omega
      rw [e1, e2]
      norm_num
    · have hL : ¬ (((m : Nat) : Int) = 4 ∨ ((m : Nat) : Int) = 6 ∨
          ((m : Nat) : Int) = 9 ∨ ((m : Nat) : Int) = 11) := by
        intro hc
        apply h46
        rcases hc with h | h | h | h
        · exact Or.inl (by exact_mod_cast h)
        · exact Or.inr (Or.inl (by exact_mod_cast h))
        · exact Or.inr (Or.inr (Or.inl (by exact_mod_cast h)))
        · exact Or.inr (Or.inr (Or.inr (by exact_mod_cast h)))
      have e1 : ((m : Int) = 4 || (m : Int) = 6 || (m : Int) = 9 || (m : Int) = 11) = false := by
        simp only [Bool.or_eq_false_iff, decide_eq_false_iff_not]
        tauto
      have e2 : ((m : Nat) = 4 || m = 6 || m = 9 || m = 11) = false := by
        simp only [Bool.or_eq_false_iff, decide_eq_false_iff_not]
        omega
      rw [e1, e2]
      norm_num

/-- Round trip: converting a day index to its civil date and back is the
identity. -/
theorem daysFromCivil_civilFromDays (n : Int) :
    daysFromCivil (civilFromDays n).1 (civilFromDays n).2.1 (civilFromDays n).2.2 = n := by
  obtain ⟨yoe, m, d, mp, ms, hcfd, hy399, hm1, hm12, hd1, hdim, hmple, hmpgt, hmp11,
    hms, hms365, heq⟩ :=
    cfdCore_spec ((n + 719468) % 146097).toNat (by omega)
  have hciv : civilFromDays n =
      ((n + 719468) / 146097 * 400 + ((yoe + (if m ≤ 2 then 1 else 0) : Nat) : Int),
        (m : Int), (d : Int)) := by
    unfold civilFromDays
    dsimp only
    rw [hcfd]
  rw [hciv]
  unfold daysFromCivil
  dsimp only
  by_cases hm2 : m ≤ 2
  · have hmi : ((m : Nat) : Int) ≤ 2 := by exact_mod_cast hm2
    rw [if_pos hm2, if_pos hmi, if_neg (show ¬ (2 : Int) < (m : Int) by omega)]
    have e2 : (n + 719468) / 146097 * 400 + ((yoe + 1 : Nat) : Int) - 1 =
        (n + 719468) / 146097 * 400 + (yoe : Int) := by
      push_cast
      ring
    rw [e2]
    have e3 : ((n + 719468) / 146097 * 400 + (yoe : Int)) / 400 = (n + 719468) / 146097 := by
      omega
    rw [e3]
    have e4 : (n + 719468) / 146097 * 400 + (yoe : Int) - 400 * ((n + 719468) / 146097) =
        (yoe : Int) := by ring
    rw [e4]
    have hmp' : mp = m + 9 := hmple hm2
    have e5 : (153 * ((m : Int) + 9) + 2) / 5 = (ms : Int) := by
      omega
    rw [e5]
    have e6 : ((yoe : Int)) / 4 = ((yoe / 4 : Nat) : Int) := by omega
    have e7 : ((yoe : Int)) / 100 = ((yoe / 100 : Nat) : Int) := by omega
    rw [e6, e7]
    omega
  · have hmi : ¬ ((m : Nat) : Int) ≤ 2 := by
      intro hc
      exact hm2 (by exact_mod_cast hc)
    rw [if_neg hm2, if_neg hmi, if_pos (show (2 : Int) < (m : Int) by omega)]
    have e2 : (n + 719468) / 146097 * 400 + ((yoe + 0 : Nat) : Int) =
        (n + 719468) / 146097 * 400 + (yoe : Int) := by
      push_cast
      ring
    rw [e2]
    have e3 : ((n + 719468) / 146097 * 400 + (yoe : Int)) / 400 = (n + 719468) / 146097 := by
      omega
    rw [e3]
    have e4 : (n + 719468) / 146097 * 400 + (yoe : Int) - 400 * ((n + 719468) / 146097) =
        (yoe : Int) := by ring
    rw [e4]
    have hmp' : mp = m - 3 := hmpgt (by omega)
    have e5 : (153 * ((m : Int) - 3) + 2) / 5 = (ms : Int) := by
      omega
    rw [e5]
    have e6 : ((yoe : Int)) / 4 = ((yoe / 4 : Nat) : Int) := by omega
    have e7 : ((yoe : Int)) / 100 = ((yoe / 100 : Nat) : Int) := by omega
    rw [e6, e7]
    omega

/-- The civil date extracted from any day index is a valid calendar
date. -/
theorem civilFromDays_valid (n : Int) :
    validYMD (civilFromDays n).1 (civilFromDays n).2.1 (civilFromDays n).2.2 = true := by
  obtain ⟨yoe, m, d, mp, ms, hcfd, hy399, hm1, hm12, hd1, hdim, hmple, hmpgt, hmp11,
    hms, hms365, heq⟩ :=
    cfdCore_spec ((n + 719468) % 146097).toNat (by omega)
  have hciv : civilFromDays n =
      ((n + 719468) / 146097 * 400 + ((yoe + (if m ≤ 2 then 1 else 0) : Nat) : Int),
        (m : Int), (d : Int)) := by
    unfold civilFromDays
    dsimp only
    rw [hcfd]
  rw [hciv]
  unfold validYMD
  dsimp only
  rw [daysInMonth_dimCore ((n + 719468) / 146097) yoe m hm1 hm12 hy399]
  simp only [Bool.and_eq_true, decide_eq_true_eq]
  refine ⟨⟨⟨by exact_mod_cast hm1, by exact_mod_cast hm12⟩, by exact_mod_cast hd1⟩,
    by exact_mod_cast hdim⟩

/-- For day indices within a comfortable window around the epoch the
extracted civil year lies inside the JavaScript Date year range. -/
theorem civilFromDays_year_bounds (n : Int) (h1 : -99000000 ≤ n) (h2 : n ≤ 99000000) :
    -271820 ≤ (civilFromDays n).1 ∧ (civilFromDays n).1 ≤ 275759 := by
  obtain ⟨yoe, m, d, mp, ms, hcfd, hy399, hm1, hm12, hd1, hdim, hmple, hmpgt, hmp11,
    hms, hms365, heq⟩ :=
    cfdCore_spec ((n + 719468) % 146097).toNat (by omega)
  have hciv : civilFromDays n =
      ((n + 719468) / 146097 * 400 + ((yoe + (if m ≤ 2 then 1 else 0) : Nat) : Int),
        (m : Int), (d : Int)) := by
    unfold civilFromDays
    dsimp only
    rw [hcfd]
  rw [hciv]
  dsimp only
  have hadj : (if m ≤ 2 then 1 else 0) ≤ 1 := by split <;> omega
  omega

/-- Everything a built `fromObject` construction determines: the
validity of the fields, the instant's epoch, its time of day (stated
modulo the hour-24 midnight rollover), and — whenever the hour is at
most 23 — the exact wall-clock decomposition of the built instant. -/
theorem fromObject_built_facts (y mo d h m s off : Int) (z : ZDT)
    (hz : fromObject y mo d h (some m) s off = FromObjectResult.built z) :
    validFields y mo d h m s = true ∧ z.offset = off ∧
    z.epoch = daysFromCivil y mo d * 86400 + h * 3600 + m * 60 + s - off * 60 ∧
    z.sod = (h * 3600 + m * 60 + s) % 86400 ∧
    (h ≤ 23 →
      z.localDay = daysFromCivil y mo d ∧ z.sod = h * 3600 + m * 60 + s ∧
      z.hour = h ∧ z.minute = m ∧ z.second = s) := by
  simp only [fromObject] at hz
  split at hz
  · next hv =>
      injection hz with hz2
      subst hz2
      have hv2 := hv
      simp only [validFields, validYMD, Bool.and_eq_true, Bool.or_eq_true,
        decide_eq_true_eq] at hv2
      refine ⟨hv, rfl, rfl, ?_, ?_⟩
      · simp only [ZDT.sod, ZDT.localSeconds]
        omega
      · intro hh
        refine ⟨?_, ?_, ?_, ?_, ?_⟩ <;>
          (simp only [ZDT.localDay, ZDT.sod, ZDT.hour, ZDT.minute, ZDT.second,
            ZDT.localSeconds]; omega)
  · exact FromObjectResult.noConfusion hz

/-- With a numeric minute, `fromObject` yields the invalid DateTime
exactly on an out-of-range field set (and in particular never throws). -/
theorem fromObject_invalid_iff (y mo d h s off : Int) (m : Int) :
    fromObject y mo d h (some m) s off = FromObjectResult.invalid ↔
      validFields y mo d h m s = false := by
  simp only [fromObject]
  split
  · next hv => simp [hv]
  · next hv => simp [Bool.eq_false_iff, hv]

/-- `fromObject` throws exactly when the minute is NaN, independently of
every other field. -/
theorem fromObject_thrown_iff (y mo d h s off : Int) (mi : Option Int) :
    fromObject y mo d h mi s off = FromObjectResult.thrown ↔ mi = none := by
  cases mi with
  | none => simp [fromObject]
  | some m =>
      simp only [fromObject]
      split <;> simp

/-- Advancing one day moves the local calendar day index by one. -/
theorem plusDays_localDay (z : ZDT) : (z.plusDays 1).localDay = z.localDay + 1 := by
  unfold ZDT.plusDays ZDT.localDay ZDT.localSeconds
  dsimp only
  omega

/-- Advancing one day leaves the wall-clock time of day unchanged. -/
theorem plusDays_sod (z : ZDT) : (z.plusDays 1).sod = z.sod := by
  unfold ZDT.plusDays ZDT.sod ZDT.localSeconds
  dsimp only
  omega

/-- Characterisation of the reference resolution on a string the ISO
parser accepts with valid fields: the absolute instant is computed from
the parsed wall-clock fields and the offset the string itself carries
(the system offset enters only when the string carries none), and the
result is expressed at the target-zone offset — the zone conversion
preserves the instant. -/
theorem resolveReference_eq (s : String) (p : IsoParse) (tz so : Int)
    (hp : fromISO s = some p)
    (hv : validFields p.year p.month p.day p.hour p.minute p.second = true) :
    resolveReference s tz so =
      some ⟨daysFromCivil p.year p.month p.day * 86400 +
        p.hour * 3600 + p.minute * 60 + p.second - isoOffsetOf p.zone so * 60, tz⟩ := by
  unfold resolveReference
  rw [hp]
  simp only [hv, if_true]

/-- Reduction of the handler on a POST request that passes the four
field gates, the timezone gate and the reference resolution: what
remains is the date-candidate step, the time parse and the field
combination. -/
theorem handler_run (zdb : String → Option Int)
    (cp : String → Int → List Candidate) (sysOff snow : Int) (body : ReqBody)
    (hd ht tz cct : String) (tzOff : Int) (now : ZDT)
    (h1 : fieldOk body.humanDate = some hd)
    (h2 : fieldOk body.humanTime = some ht)
    (h3 : fieldOk body.timeZone = some tz)
    (h4 : fieldOk body.clientCurrentTime = some cct)
    (h5 : zdb tz = some tzOff)
    (h6 : resolveReference cct tzOff sysOff = some now) :
    handler zdb cp sysOff snow "POST" body =
      match dateCandidates cp hd now with
      | [] => Response.badRequest ErrKind.couldNotParseDate
      | start :: _ =>
          match parseTimePhrase ht with
          | none => Response.badRequest ErrKind.couldNotParseTime
          | some (hour, minute, sec) =>
              combineFields start hour minute sec tzOff now tz hd ht cct := by
  unfold handler
  dsimp only
  rw [if_neg (by decide : ¬ ("POST" = "OPTIONS")),
    if_neg (show ¬ ("POST" ≠ "POST") by simp)]
  simp only [h1, h2, h3, h4, h5, h6]

/-- Characterisation of the field-combination step: the construction
outcome, the roll-forward test as the source computes it, the three
responses. -/
theorem combineFields_eq (start : Candidate) (hour : Int) (minute : Option Int)
    (sec : Int) (tzOff : Int) (now : ZDT) (tz hd ht cct : String) :
    combineFields start hour minute sec tzOff now tz hd ht cct =
      match fromObject start.year start.month start.day hour minute sec tzOff with
      | FromObjectResult.thrown => Response.internalError
      | FromObjectResult.invalid => Response.badRequest ErrKind.invalidDateGenerated
      | FromObjectResult.built d0 =>
          if ((!start.certDay && !start.certMonth && !start.certYear) &&
              decide (d0.epoch < now.epoch)) = true then
            Response.ok (d0.plusDays 1) tz hd ht cct
          else Response.ok d0 tz hd ht cct := by
  unfold combineFields
  cases hfo : fromObject start.year start.month start.day hour minute sec tzOff with
  | thrown => rfl
  | invalid => rfl
  | built d0 => dsimp only

/-- Outside the "tomorrow" shortcut the candidate list is exactly the
external parser's answer. -/
theorem dateCandidates_not_tomorrow (cp : String → Int → List Candidate)
    (hd : String) (now : ZDT) (h : toLowerAscii hd ≠ "tomorrow") :
    dateCandidates cp hd now = cp hd now.epoch := by
  unfold dateCandidates
  rw [if_neg h]

/-- On the "tomorrow" shortcut the candidate list is the single
fabricated candidate and the external parser is not consulted. -/
theorem dateCandidates_tomorrow (cp : String → Int → List Candidate)
    (hd : String) (now : ZDT) (h : toLowerAscii hd = "tomorrow") :
    dateCandidates cp hd now = [tomorrowCandidate now] := by
  unfold dateCandidates
  rw [if_pos h]

/-- Advancing one day leaves the wall-clock hour unchanged. -/
theorem plusDays_hour (z : ZDT) : (z.plusDays 1).hour = z.hour := by
  unfold ZDT.hour
  rw [plusDays_sod]

/-- Advancing one day leaves the wall-clock minute unchanged. -/
theorem plusDays_minute (z : ZDT) : (z.plusDays 1).minute = z.minute := by
  unfold ZDT.minute
  rw [plusDays_sod]

/-- Advancing one day leaves the wall-clock second unchanged. -/
theorem plusDays_second (z : ZDT) : (z.plusDays 1).second = z.second := by
  unfold ZDT.second
  rw [plusDays_sod]

/-- A successful field combination carries the parsed time fields as
its wall-clock time, whether or not the roll-forward applied: exactly
when the hour is at most 23, and always as the time of day modulo the
hour-24 midnight rollover. -/
theorem combineFields_ok_time (c : Candidate) (hour mi sec tzOff : Int) (now : ZDT)
    (tz hd ht cct : String) (z : ZDT)
    (hok : combineFields c hour (some mi) sec tzOff now tz hd ht cct =
      Response.ok z tz hd ht cct) :
    z.sod = (hour * 3600 + mi * 60 + sec) % 86400 ∧
    (hour ≤ 23 → z.hour = hour ∧ z.minute = mi ∧ z.second = sec) := by
  rw [combineFields_eq] at hok
  cases hfo : fromObject c.year c.month c.day hour (some mi) sec tzOff with
  | thrown =>
      simp only [hfo] at hok
      exact Response.noConfusion hok
  | invalid =>
      simp only [hfo] at hok
      exact Response.noConfusion hok
  | built d0 =>
      simp only [hfo] at hok
      obtain ⟨hv, hoff, hep, hsodm, hrest⟩ := fromObject_built_facts _ _ _ _ _ _ _ _ hfo
      split at hok
      · have hz : z = d0.plusDays 1 := by
          injection hok with e1
          exact e1.symm
        refine ⟨?_, ?_⟩
        · rw [hz, plusDays_sod, hsodm]
        · intro hh
          obtain ⟨_, _, hhh, hmm, hss⟩ := hrest hh
          rw [hz, plusDays_hour, plusDays_minute, plusDays_second]
          exact ⟨hhh, hmm, hss⟩
      · have hz : z = d0 := by
          injection hok with e1
          exact e1.symm
        refine ⟨?_, ?_⟩
        · rw [hz, hsodm]
        · intro hh
          obtain ⟨_, _, hhh, hmm, hss⟩ := hrest hh
          rw [hz]
          exact ⟨hhh, hmm, hss⟩

/-! ## Claim theorems -/

/-- C3: the Time-of-Day Parser tries the 12-hour am/pm pattern first and
converts it to 24-hour form: the minute defaults to 0 when the :MM part
is absent, pm adds 12 to the hour unless the hour is 12, am maps hour 12
to 0 and otherwise leaves the hour unchanged; in particular 12am yields
hour 0, 12pm yields hour 12, 12:30am yields hour 0 minute 30, the am/pm
suffix is matched case-insensitively and an optional space may precede
it. -/
theorem c3_twelve_hour_conversion :
    (∀ (s : String) (h : Nat) (m : Option Nat) (pm : Bool),
        match12 s.toList = some (h, m, pm) →
        parseTimePhrase s =
          some (((if pm && decide (h ≠ 12) then h + 12
                  else if !pm && decide (h = 12) then 0 else h : Nat) : Int),
                some (((match m with | some v => v | none => 0) : Nat) : Int), 0)) ∧
    parseTimePhrase "12am" = some (0, some 0, 0) ∧
    parseTimePhrase "12pm" = some (12, some 0, 0) ∧
    parseTimePhrase "12:30am" = some (0, some 30, 0) ∧
    parseTimePhrase "12:30AM" = some (0, some 30, 0) ∧
    parseTimePhrase "12 Pm" = some (12, some 0, 0) ∧
    parseTimePhrase "2pm" = some (14, some 0, 0) := by
  refine ⟨?_, by decide, by decide, by decide, by decide, by decide, by decide⟩
  intro s h m pm hm
  simp only [parseTimePhrase, hm]

/-- C3 witness: the general 12-hour conversion statement applied to the
concrete phrase 2:30pm. -/
theorem c3_twelve_hour_conversion_witness :
    parseTimePhrase "2:30pm" = some (14, some 30, 0) :=
  c3_twelve_hour_conversion.1 "2:30pm" 2 (some 30) true (by decide)

/-- C2: at the failing input — a bare 24-hour phrase without the :MM
part, such as "14" — the handler computes the hour from the digits but
the minute as parseInt of an absent capture, i.e. NaN; feeding that NaN
to `DateTime.fromObject` makes luxon throw the Invalid-unit-value
`InvalidArgumentError`, which the catch-all of line 207 turns into the
500 Internal-server-error response; the same request with "14:30"
succeeds.  This contradicts the claim (and the source's own branch
comment listing "14" as a handled 24-hour format). -/
theorem c2_bare_hour_minute_nan :
    parseTimePhrase "14" = some (14, none, 0) ∧
    parseTimePhrase "14:30" = some (14, some 30, 0) ∧
    (∀ y mo d s off, fromObject y mo d 14 none s off = FromObjectResult.thrown) ∧
    handler sampleZoneDB emptyChrono 0 0 "POST"
      { humanDate := some (JsVal.str "tomorrow"), humanTime := some (JsVal.str "14"),
        timeZone := some (JsVal.str "America/Chicago"),
        clientCurrentTime := some (JsVal.str "2024-01-15T10:00:00Z") } =
      Response.internalError ∧
    handler sampleZoneDB emptyChrono 0 0 "POST"
      { humanDate := some (JsVal.str "tomorrow"), humanTime := some (JsVal.str "14:30"),
        timeZone := some (JsVal.str "America/Chicago"),
        clientCurrentTime := some (JsVal.str "2024-01-15T10:00:00Z") } =
      Response.ok ⟨1705437000, -360⟩ "America/Chicago" "tomorrow" "14:30"
        "2024-01-15T10:00:00Z" := by
  refine ⟨by decide, by decide, fun y mo d s off => rfl, by decide, by decide⟩

/-- C4: the variant A handler never samples the server wall clock: its
response is the same for every value of the ambient clock, so two
invocations with identical request bodies (and the same deterministic
environment of zone registry, system zone and date-phrase parser)
produce identical responses. -/
theorem c4_no_wall_clock (zdb : String → Option Int)
    (cp : String → Int → List Candidate) (sysOff : Int) (snow1 snow2 : Int)
    (method : String) (body : ReqBody) :
    handler zdb cp sysOff snow1 method body = handler zdb cp sysOff snow2 method body := rfl

/-- C8: variant A validates fail-fast and in order — a missing, empty or
non-string humanDate, humanTime, timeZone or clientCurrentTime is
rejected with its per-field error before any semantic parsing, and an
unknown timezone identifier is rejected before the reference instant is
parsed: in that case the response is the invalid-timezone error for
every clientCurrentTime value and every date-phrase parser, so the
Reference Instant Resolver is never reached. -/
theorem c8_validation_order (zdb : String → Option Int)
    (cp : String → Int → List Candidate) (sysOff snow : Int) (body : ReqBody) :
    (fieldOk body.humanDate = none →
      handler zdb cp sysOff snow "POST" body =
        Response.badRequest ErrKind.missingHumanDate) ∧
    (∀ hd, fieldOk body.humanDate = some hd → fieldOk body.humanTime = none →
      handler zdb cp sysOff snow "POST" body =
        Response.badRequest ErrKind.missingHumanTime) ∧
    (∀ hd ht, fieldOk body.humanDate = some hd → fieldOk body.humanTime = some ht →
      fieldOk body.timeZone = none →
      handler zdb cp sysOff snow "POST" body =
        Response.badRequest ErrKind.missingTimeZone) ∧
    (∀ hd ht tz, fieldOk body.humanDate = some hd → fieldOk body.humanTime = some ht →
      fieldOk body.timeZone = some tz → fieldOk body.clientCurrentTime = none →
      handler zdb cp sysOff snow "POST" body =
        Response.badRequest ErrKind.missingClientCurrentTime) ∧
    (∀ hd ht tz cct, fieldOk body.humanDate = some hd → fieldOk body.humanTime = some ht →
      fieldOk body.timeZone = some tz → fieldOk body.clientCurrentTime = some cct →
      zdb tz = none →
      handler zdb cp sysOff snow "POST" body =
        Response.badRequest ErrKind.invalidTimezone) := by
  refine ⟨?_, ?_, ?_, ?_, ?_⟩
  · intro g1
    unfold handler
    dsimp only
    rw [if_neg (by decide : ¬ ("POST" = "OPTIONS")),
      if_neg (show ¬ ("POST" ≠ "POST") by simp)]
    simp only [g1]
  · intro hd g1 g2
    unfold handler
    dsimp only
    rw [if_neg (by decide : ¬ ("POST" = "OPTIONS")),
      if_neg (show ¬ ("POST" ≠ "POST") by simp)]
    simp only [g1, g2]
  · intro hd ht g1 g2 g3
    unfold handler
    dsimp only
    rw [if_neg (by decide : ¬ ("POST" = "OPTIONS")),
      if_neg (show ¬ ("POST" ≠ "POST") by simp)]
    simp only [g1, g2, g3]
  · intro hd ht tz g1 g2 g3 g4
    unfold handler
    dsimp only
    rw [if_neg (by decide : ¬ ("POST" = "OPTIONS")),
      if_neg (show ¬ ("POST" ≠ "POST") by simp)]
    simp only [g1, g2, g3, g4]
  · intro hd ht tz cct g1 g2 g3 g4 g5
    unfold handler
    dsimp only
    rw [if_neg (by decide : ¬ ("POST" = "OPTIONS")),
      if_neg (show ¬ ("POST" ≠ "POST") by simp)]
    simp only [g1, g2, g3, g4, g5]

/-- C8 witness: the field-gate errors and the invalid-timezone error at
concrete bodies, through the ordering theorem. -/
theorem c8_validation_order_witness :
    handler sampleZoneDB emptyChrono 0 0 "POST"
      { humanDate := none, humanTime := some (JsVal.str "2pm"),
        timeZone := some (JsVal.str "UTC"),
        clientCurrentTime := some (JsVal.str "2024-01-15T15:00:00Z") } =
      Response.badRequest ErrKind.missingHumanDate ∧
    handler sampleZoneDB emptyChrono 0 0 "POST"
      { humanDate := some (JsVal.str "tomorrow"), humanTime := some (JsVal.str ""),
        timeZone := some (JsVal.str "UTC"),
        clientCurrentTime := some (JsVal.str "2024-01-15T15:00:00Z") } =
      Response.badRequest ErrKind.missingHumanTime ∧
    handler sampleZoneDB emptyChrono 0 0 "POST"
      { humanDate := some (JsVal.str "tomorrow"), humanTime := some (JsVal.str "2pm"),
        timeZone := some JsVal.notStr,
        clientCurrentTime := some (JsVal.str "2024-01-15T15:00:00Z") } =
      Response.badRequest ErrKind.missingTimeZone ∧
    handler sampleZoneDB emptyChrono 0 0 "POST"
      { humanDate := some (JsVal.str "tomorrow"), humanTime := some (JsVal.str "2pm"),
        timeZone := some (JsVal.str "UTC"), clientCurrentTime := none } =
      Response.badRequest ErrKind.missingClientCurrentTime ∧
    handler sampleZoneDB emptyChrono 0 0 "POST"
      { humanDate := some (JsVal.str "tomorrow"), humanTime := some (JsVal.str "2pm"),
        timeZone := some (JsVal.str "Nowhere/Fake"),
        clientCurrentTime := some (JsVal.str "not-a-date") } =
      Response.badRequest ErrKind.invalidTimezone := by
  refine ⟨?_, ?_, ?_, ?_, ?_⟩
  · exact (c8_validation_order sampleZoneDB emptyChrono 0 0 _).1 (by decide)
  · exact (c8_validation_order sampleZoneDB emptyChrono 0 0 _).2.1 "tomorrow"
      (by decide) (by decide)
  · exact (c8_validation_order sampleZoneDB emptyChrono 0 0 _).2.2.1 "tomorrow" "2pm"
      (by decide) (by decide) (by decide)
  · exact (c8_validation_order sampleZoneDB emptyChrono 0 0 _).2.2.2.1 "tomorrow" "2pm"
      "UTC" (by decide) (by decide) (by decide) (by decide)
  · exact (c8_validation_order sampleZoneDB emptyChrono 0 0 _).2.2.2.2 "tomorrow" "2pm"
      "Nowhere/Fake" "not-a-date" (by decide) (by decide) (by decide) (by decide)
      (by decide)

/-- C5: the Reference Instant Resolver parses the instant string
preserving the offset it carries (a trailing Z or explicit offset is
honored: the absolute instant is computed against that offset, the
system zone entering only when the string carries none) and then
converts to the target zone keeping the same absolute instant, only the
expressed offset changing; a string that cannot be parsed as a valid
instant, such as not-a-date, makes variant A answer the invalid
clientCurrentTime error — no wall-clock fallback, no exception. -/
theorem c5_reference_resolution (zdb : String → Option Int)
    (cp : String → Int → List Candidate) (sysOff snow : Int) (body : ReqBody) :
    (∀ (s : String) (p : IsoParse) (tz so : Int),
        fromISO s = some p →
        validFields p.year p.month p.day p.hour p.minute p.second = true →
        resolveReference s tz so =
          some ⟨daysFromCivil p.year p.month p.day * 86400 + p.hour * 3600 +
            p.minute * 60 + p.second - isoOffsetOf p.zone so * 60, tz⟩) ∧
    fromISO "not-a-date" = none ∧
    (∀ hd ht tz cct tzOff,
        fieldOk body.humanDate = some hd → fieldOk body.humanTime = some ht →
        fieldOk body.timeZone = some tz → fieldOk body.clientCurrentTime = some cct →
        zdb tz = some tzOff → resolveReference cct tzOff sysOff = none →
        handler zdb cp sysOff snow "POST" body =
          Response.badRequest ErrKind.invalidClientCurrentTime) := by
  refine ⟨?_, by decide, ?_⟩
  · intro s p tz so hp hv
    exact resolveReference_eq s p tz so hp hv
  · intro hd ht tz cct tzOff g1 g2 g3 g4 g5 g6
    unfold handler
    dsimp only
    rw [if_neg (by decide : ¬ ("POST" = "OPTIONS")),
      if_neg (show ¬ ("POST" ≠ "POST") by simp)]
    simp only [g1, g2, g3, g4, g5, g6]

/-- C5 witness: a reference instant with an explicit offset resolves to
the instant the offset dictates, and the not-a-date request is rejected
with the invalid clientCurrentTime error. -/
theorem c5_reference_resolution_witness :
    resolveReference "2024-01-15T09:00:00-06:00" 0 123 = some ⟨1705330800, 0⟩ ∧
    handler sampleZoneDB emptyChrono 0 0 "POST"
      { humanDate := some (JsVal.str "tomorrow"), humanTime := some (JsVal.str "2pm"),
        timeZone := some (JsVal.str "UTC"),
        clientCurrentTime := some (JsVal.str "not-a-date") } =
      Response.badRequest ErrKind.invalidClientCurrentTime := by
  constructor
  · have h := (c5_reference_resolution sampleZoneDB emptyChrono 0 0
      { humanDate := none, humanTime := none, timeZone := none,
        clientCurrentTime := none }).1 "2024-01-15T09:00:00-06:00"
      ⟨2024, 1, 15, 9, 0, 0, IsoZone.off (-360)⟩ 0 123 (by decide) (by decide)
    exact h.trans (by decide)
  · exact (c5_reference_resolution sampleZoneDB emptyChrono 0 0 _).2.2 "tomorrow" "2pm"
      "UTC" "not-a-date" 0 (by decide) (by decide) (by decide) (by decide) (by decide)
      (by decide)

/-- C9: in variant B an empty candidate list from the date-phrase parser
does not produce an error: the operation answers the reference instant
itself as convertedDate together with the explanatory message (the
fallback result), and when the reference override parses and the zone is
known, that degraded value is exactly the parsed reference instant
expressed in the target zone. -/
theorem c9_soft_fallback (zdb : String → Option Int)
    (cpB : String → Option Int → List Candidate) (sysOff snow : Int)
    (text tz : String) (now : Option String) :
    (cpB text ((bNowZoned zdb sysOff snow tz now).map ZDT.epoch) = [] →
      testParseDate zdb cpB sysOff snow text tz now =
        BResult.fallback (bNowZoned zdb sysOff snow tz now)) ∧
    (∀ s (p : IsoParse) tzOff, now = some s → zdb tz = some tzOff →
      fromISO s = some p →
      validFields p.year p.month p.day p.hour p.minute p.second = true →
      bNowZoned zdb sysOff snow tz now =
        some ⟨daysFromCivil p.year p.month p.day * 86400 + p.hour * 3600 +
          p.minute * 60 + p.second - isoOffsetOf p.zone sysOff * 60, tzOff⟩) := by
  constructor
  · intro h
    unfold testParseDate
    dsimp only
    rw [h]
  · intro s p tzOff hs hz hp hv
    unfold bNowZoned
    rw [hz, hs]
    exact resolveReference_eq s p tzOff sysOff hp hv

/-- C9 witness: the fallback at a concrete unparseable text with a
concrete reference override. -/
theorem c9_soft_fallback_witness :
    testParseDate sampleZoneDB (fun _ _ => []) 0 777 "gibberish" "UTC"
      (some "2024-01-15T15:00:00Z") =
      BResult.fallback (some ⟨1705330800, 0⟩) ∧
    bNowZoned sampleZoneDB 0 777 "UTC" (some "2024-01-15T15:00:00Z") =
      some ⟨1705330800, 0⟩ := by
  constructor
  · have h := (c9_soft_fallback sampleZoneDB (fun _ _ => []) 0 777 "gibberish" "UTC"
      (some "2024-01-15T15:00:00Z")).1 (by decide)
    exact h.trans (by decide)
  · have h := (c9_soft_fallback sampleZoneDB (fun _ _ => []) 0 777 "gibberish" "UTC"
      (some "2024-01-15T15:00:00Z")).2 "2024-01-15T15:00:00Z"
      ⟨2024, 1, 15, 15, 0, 0, IsoZone.utc⟩ 0 rfl (by decide) (by decide) (by decide)
    exact h.trans (by decide)

/-- C1: given a request that reaches the field-combination stage outside
the tomorrow shortcut, the roll-forward applies exactly when the
candidate marks day, month and year all uncertain AND the constructed
instant is strictly earlier than the reference instant; in that case the
result is the constructed instant advanced by exactly one calendar day
(local day index plus one, wall-clock time of day unchanged), applied
once; and whenever any of the three date fields is certain the result is
the constructed instant unchanged, even if it lies in the past. -/
theorem c1_roll_forward (zdb : String → Option Int)
    (cp : String → Int → List Candidate) (sysOff snow : Int) (body : ReqBody)
    (hd ht tz cct : String) (tzOff : Int) (now : ZDT)
    (h1 : fieldOk body.humanDate = some hd)
    (h2 : fieldOk body.humanTime = some ht)
    (h3 : fieldOk body.timeZone = some tz)
    (h4 : fieldOk body.clientCurrentTime = some cct)
    (h5 : zdb tz = some tzOff)
    (h6 : resolveReference cct tzOff sysOff = some now)
    (h7 : toLowerAscii hd ≠ "tomorrow")
    (start : Candidate) (rest : List Candidate)
    (h8 : cp hd now.epoch = start :: rest)
    (hour : Int) (minute : Option Int) (sec : Int)
    (h9 : parseTimePhrase ht = some (hour, minute, sec))
    (d0 : ZDT)
    (h10 : fromObject start.year start.month start.day hour minute sec tzOff =
      FromObjectResult.built d0) :
    (handler zdb cp sysOff snow "POST" body =
      if start.certDay = false ∧ start.certMonth = false ∧ start.certYear = false ∧
          d0.epoch < now.epoch
      then Response.ok (d0.plusDays 1) tz hd ht cct
      else Response.ok d0 tz hd ht cct) ∧
    (d0.plusDays 1).localDay = d0.localDay + 1 ∧
    (d0.plusDays 1).sod = d0.sod ∧
    ((start.certDay = true ∨ start.certMonth = true ∨ start.certYear = true) →
      handler zdb cp sysOff snow "POST" body = Response.ok d0 tz hd ht cct) := by
  have hrun := handler_run zdb cp sysOff snow body hd ht tz cct tzOff now h1 h2 h3 h4 h5 h6
  rw [dateCandidates_not_tomorrow cp hd now h7, h8] at hrun
  simp only [h9] at hrun
  rw [combineFields_eq] at hrun
  simp only [h10] at hrun
  refine ⟨?_, plusDays_localDay d0, plusDays_sod d0, ?_⟩
  · rw [hrun]
    by_cases hc : start.certDay = false ∧ start.certMonth = false ∧ start.certYear = false ∧
        d0.epoch < now.epoch
    · rw [if_pos ?_, if_pos hc]
      simp [hc.1, hc.2.1, hc.2.2.1, hc.2.2.2]
    · rw [if_neg ?_, if_neg hc]
      intro hb
      apply hc
      simp only [Bool.and_eq_true, Bool.not_eq_true', decide_eq_true_eq] at hb
      exact ⟨hb.1.1.1, hb.1.1.2, hb.1.2, hb.2⟩
  · intro hcert
    rw [hrun, if_neg]
    intro hb
    simp only [Bool.and_eq_true, Bool.not_eq_true', decide_eq_true_eq] at hb
    rcases hcert with h | h | h
    · rw [h] at hb
      exact Bool.noConfusion hb.1.1.1
    · rw [h] at hb
      exact Bool.noConfusion hb.1.1.2
    · rw [h] at hb
      exact Bool.noConfusion hb.1.2

/-- C1 witness: a concrete all-uncertain candidate at 2pm with a 3pm
reference rolls forward to the next day, and the same candidate with a
certain day stays in the past. -/
theorem c1_roll_forward_witness :
    handler sampleZoneDB timeOnlyChrono 0 0 "POST" (sampleBody "sometime" "2pm") =
      Response.ok ⟨1705413600, 0⟩ "UTC" "sometime" "2pm" "2024-01-15T15:00:00Z" ∧
    handler sampleZoneDB certainDayChrono 0 0 "POST" (sampleBody "january 15th" "2pm") =
      Response.ok ⟨1705327200, 0⟩ "UTC" "january 15th" "2pm" "2024-01-15T15:00:00Z" := by
  constructor
  · have h := (c1_roll_forward sampleZoneDB timeOnlyChrono 0 0
      (sampleBody "sometime" "2pm") "sometime" "2pm" "UTC" "2024-01-15T15:00:00Z" 0
      ⟨1705330800, 0⟩ (by decide) (by decide) (by decide) (by decide) (by decide)
      (by decide) (by decide) timeOnlyCand [] (by decide) 14 (some 0) 0 (by decide)
      ⟨1705327200, 0⟩ (by decide)).1
    exact h.trans (by decide)
  · have h := (c1_roll_forward sampleZoneDB certainDayChrono 0 0
      (sampleBody "january 15th" "2pm") "january 15th" "2pm" "UTC"
      "2024-01-15T15:00:00Z" 0 ⟨1705330800, 0⟩ (by decide) (by decide) (by decide)
      (by decide) (by decide) (by decide) (by decide) certainDayCand [] (by decide)
      14 (some 0) 0 (by decide) ⟨1705327200, 0⟩ (by decide)).2.2.2 (Or.inl (by decide))
    exact h

/-- C6: the outcome of the six-field construction of the Resolved
Instant determines the failure class exactly: when luxon's numeric
validity check rejects the fields (e.g. an out-of-range day such as
February 30, or an out-of-range hour) the request fails with the
invalid-date error; when luxon throws on a NaN minute the response is
instead the 500 internal error of the catch-all; and a successful
response is always exactly the built instant, possibly advanced by the
one-day roll — never a clamped or otherwise adjusted instant. -/
theorem c6_invalid_instant_rejected (zdb : String → Option Int)
    (cp : String → Int → List Candidate) (sysOff snow : Int) (body : ReqBody)
    (hd ht tz cct : String) (tzOff : Int) (now : ZDT)
    (h1 : fieldOk body.humanDate = some hd)
    (h2 : fieldOk body.humanTime = some ht)
    (h3 : fieldOk body.timeZone = some tz)
    (h4 : fieldOk body.clientCurrentTime = some cct)
    (h5 : zdb tz = some tzOff)
    (h6 : resolveReference cct tzOff sysOff = some now)
    (h7 : toLowerAscii hd ≠ "tomorrow")
    (start : Candidate) (rest : List Candidate)
    (h8 : cp hd now.epoch = start :: rest)
    (hour : Int) (minute : Option Int) (sec : Int)
    (h9 : parseTimePhrase ht = some (hour, minute, sec)) :
    (fromObject start.year start.month start.day hour minute sec tzOff =
        FromObjectResult.invalid →
      handler zdb cp sysOff snow "POST" body =
        Response.badRequest ErrKind.invalidDateGenerated) ∧
    (fromObject start.year start.month start.day hour minute sec tzOff =
        FromObjectResult.thrown →
      handler zdb cp sysOff snow "POST" body = Response.internalError) ∧
    (∀ z, handler zdb cp sysOff snow "POST" body = Response.ok z tz hd ht cct →
      ∃ d0, fromObject start.year start.month start.day hour minute sec tzOff =
          FromObjectResult.built d0 ∧
        (z = d0 ∨ z = d0.plusDays 1)) := by
  have hrun := handler_run zdb cp sysOff snow body hd ht tz cct tzOff now h1 h2 h3 h4 h5 h6
  rw [dateCandidates_not_tomorrow cp hd now h7, h8] at hrun
  simp only [h9] at hrun
  rw [combineFields_eq] at hrun
  refine ⟨?_, ?_, ?_⟩
  · intro hno
    rw [hrun]
    simp only [hno]
  · intro hth
    rw [hrun]
    simp only [hth]
  · intro z hok
    rw [hrun] at hok
    cases hfo : fromObject start.year start.month start.day hour minute sec tzOff with
    | thrown =>
        simp only [hfo] at hok
        exact Response.noConfusion hok
    | invalid =>
        simp only [hfo] at hok
        exact Response.noConfusion hok
    | built d0 =>
        simp only [hfo] at hok
        split at hok
        · refine ⟨d0, rfl, Or.inr ?_⟩
          injection hok with e1
          exact e1.symm
        · refine ⟨d0, rfl, Or.inl ?_⟩
          injection hok with e1
          exact e1.symm

/-- C6 witness: a candidate resolving to February 30 is rejected with
the invalid-date error, while luxon's accepted 24:00 midnight is not
invalid and resolves to midnight of the next calendar day. -/
theorem c6_invalid_instant_rejected_witness :
    validFields 2024 2 30 14 0 0 = false ∧
    handler sampleZoneDB feb30Chrono 0 0 "POST" (sampleBody "february 30th" "2pm") =
      Response.badRequest ErrKind.invalidDateGenerated ∧
    validFields 2024 1 15 24 0 0 = true ∧
    parseTimePhrase "24:00" = some (24, some 0, 0) ∧
    handler sampleZoneDB timeOnlyChrono 0 0 "POST" (sampleBody "sometime" "24:00") =
      Response.ok ⟨1705363200, 0⟩ "UTC" "sometime" "24:00" "2024-01-15T15:00:00Z" := by
  refine ⟨by decide, ?_, by decide, by decide, by decide⟩
  exact (c6_invalid_instant_rejected sampleZoneDB feb30Chrono 0 0
    (sampleBody "february 30th" "2pm") "february 30th" "2pm" "UTC"
    "2024-01-15T15:00:00Z" 0 ⟨1705330800, 0⟩ (by decide) (by decide) (by decide)
    (by decide) (by decide) (by decide) (by decide)
    feb30Cand [] (by decide) 14 (some 0) 0
    (by decide)).1 (by decide)

/-- The field combination reads only the candidate's year, month, day
and their three certainty flags. -/
theorem combineFields_depends (c c2 : Candidate) (hour : Int) (minute : Option Int)
    (sec tzOff : Int) (now : ZDT) (tz hd ht cct : String)
    (hy : c.year = c2.year) (hmo : c.month = c2.month) (hdd : c.day = c2.day)
    (hcy : c.certYear = c2.certYear) (hcm : c.certMonth = c2.certMonth)
    (hcd : c.certDay = c2.certDay) :
    combineFields c hour minute sec tzOff now tz hd ht cct =
      combineFields c2 hour minute sec tzOff now tz hd ht cct := by
  rw [combineFields_eq, combineFields_eq, hy, hmo, hdd, hcy, hcm, hcd]

/-- C7: the wall-clock time of the resolved instant always comes from
the Time-of-Day Parser's output for humanTime and never from the
date-phrase candidate: replacing the first candidate's hour, minute,
second values and their certainty flags by anything (keeping the date
fields and date certainty flags) leaves the response unchanged, and
every successful response carries the parsed hour, minute and second as
its wall-clock time — exactly, whenever the parsed hour is at most 23,
and always as the time of day modulo the hour-24 midnight rollover
luxon applies to the accepted 24:00. -/
theorem c7_time_from_time_phrase (zdb : String → Option Int)
    (cp cp2 : String → Int → List Candidate) (sysOff snow snow2 : Int) (body : ReqBody)
    (hd ht tz cct : String) (tzOff : Int) (now : ZDT)
    (h1 : fieldOk body.humanDate = some hd)
    (h2 : fieldOk body.humanTime = some ht)
    (h3 : fieldOk body.timeZone = some tz)
    (h4 : fieldOk body.clientCurrentTime = some cct)
    (h5 : zdb tz = some tzOff)
    (h6 : resolveReference cct tzOff sysOff = some now)
    (start : Candidate) (rest : List Candidate)
    (start2 : Candidate) (rest2 : List Candidate)
    (h8 : cp hd now.epoch = start :: rest)
    (h8b : cp2 hd now.epoch = start2 :: rest2)
    (heqy : start.year = start2.year) (heqm : start.month = start2.month)
    (heqd : start.day = start2.day)
    (heqcy : start.certYear = start2.certYear)
    (heqcm : start.certMonth = start2.certMonth)
    (heqcd : start.certDay = start2.certDay) :
    handler zdb cp sysOff snow "POST" body = handler zdb cp2 sysOff snow2 "POST" body ∧
    (∀ (hour mi sec : Int) (z : ZDT), parseTimePhrase ht = some (hour, some mi, sec) →
      handler zdb cp sysOff snow "POST" body = Response.ok z tz hd ht cct →
      z.sod = (hour * 3600 + mi * 60 + sec) % 86400 ∧
      (hour ≤ 23 → z.hour = hour ∧ z.minute = mi ∧ z.second = sec)) := by
  have r1 := handler_run zdb cp sysOff snow body hd ht tz cct tzOff now h1 h2 h3 h4 h5 h6
  have r2 := handler_run zdb cp2 sysOff snow2 body hd ht tz cct tzOff now h1 h2 h3 h4 h5 h6
  by_cases hT : toLowerAscii hd = "tomorrow"
  · rw [dateCandidates_tomorrow cp hd now hT] at r1
    rw [dateCandidates_tomorrow cp2 hd now hT] at r2
    constructor
    · rw [r1, r2]
    · intro hour mi sec z hpt hok
      rw [r1] at hok
      simp only [hpt] at hok
      exact combineFields_ok_time (tomorrowCandidate now) hour mi sec tzOff now
        tz hd ht cct z hok
  · rw [dateCandidates_not_tomorrow cp hd now hT, h8] at r1
    rw [dateCandidates_not_tomorrow cp2 hd now hT, h8b] at r2
    constructor
    · rw [r1, r2]
      cases hpt : parseTimePhrase ht with
      | none => simp only [hpt]
      | some v =>
          obtain ⟨hour, minute, sec⟩ := v
          simp only [hpt]
          exact combineFields_depends start start2 hour minute sec tzOff now tz hd ht cct
            heqy heqm heqd heqcy heqcm heqcd
    · intro hour mi sec z hpt hok
      rw [r1] at hok
      simp only [hpt] at hok
      exact combineFields_ok_time start hour mi sec tzOff now tz hd ht cct z hok

/-- C7 witness: the time-only candidate with its hour/minute/second
guesses and certainty flags replaced gives the same response, whose
wall-clock time is the parsed 14:00:00. -/
theorem c7_time_from_time_phrase_witness :
    handler sampleZoneDB timeOnlyChrono 0 0 "POST" (sampleBody "sometime" "2pm") =
      handler sampleZoneDB altTimeChrono 0 99 "POST" (sampleBody "sometime" "2pm") ∧
    (⟨1705413600, 0⟩ : ZDT).sod = (14 * 3600 + 0 * 60 + 0) % 86400 ∧
    (⟨1705413600, 0⟩ : ZDT).hour = 14 ∧ (⟨1705413600, 0⟩ : ZDT).minute = 0 ∧
    (⟨1705413600, 0⟩ : ZDT).second = 0 := by
  have h := c7_time_from_time_phrase sampleZoneDB timeOnlyChrono altTimeChrono 0 0 99
    (sampleBody "sometime" "2pm") "sometime" "2pm" "UTC" "2024-01-15T15:00:00Z" 0
    ⟨1705330800, 0⟩ (by decide) (by decide) (by decide) (by decide) (by decide)
    (by decide) timeOnlyCand [] altTimeCand []
    (by decide) (by decide) (by decide) (by decide) (by decide) (by decide)
    (by decide) (by decide)
  have h2 := h.2 14 0 0 ⟨1705413600, 0⟩ (by decide) (by decide)
  exact ⟨h.1, h2.1, h2.2 (by decide)⟩

/-- C10: when humanDate equals "tomorrow" up to letter case, the handler
bypasses the external date-phrase parser and fabricates one all-certain
candidate a day past the reference instant; such a request never fails
with the could-not-parse-date error; every successful response equals
the directly constructed instant (no roll-forward is ever applied, the
certainty flags all being true), whose epoch is assembled from the day
after the reference day and the parsed time — landing on that very
calendar day with exactly the parsed wall-clock time whenever the
parsed hour is at most 23 (the accepted hour-24 midnight rolls on to
the following midnight); and with an in-range parsed time and a
reference instant in the representable window the request does
succeed. -/
theorem c10_tomorrow_shortcut (zdb : String → Option Int)
    (cp : String → Int → List Candidate) (sysOff snow : Int) (body : ReqBody)
    (hd ht tz cct : String) (tzOff : Int) (now : ZDT)
    (h1 : fieldOk body.humanDate = some hd)
    (h2 : fieldOk body.humanTime = some ht)
    (h3 : fieldOk body.timeZone = some tz)
    (h4 : fieldOk body.clientCurrentTime = some cct)
    (h5 : zdb tz = some tzOff)
    (h6 : resolveReference cct tzOff sysOff = some now)
    (hT : toLowerAscii hd = "tomorrow") :
    handler zdb cp sysOff snow "POST" body ≠
      Response.badRequest ErrKind.couldNotParseDate ∧
    (∀ (hour mi sec : Int) (z : ZDT),
      parseTimePhrase ht = some (hour, some mi, sec) →
      handler zdb cp sysOff snow "POST" body = Response.ok z tz hd ht cct →
      z.offset = tzOff ∧
      z.epoch = (now.localDay + 1) * 86400 + hour * 3600 + mi * 60 + sec - tzOff * 60 ∧
      (hour ≤ 23 →
        z.localDay = now.localDay + 1 ∧ z.sod = hour * 3600 + mi * 60 + sec)) ∧
    (∀ (hour mi sec : Int), parseTimePhrase ht = some (hour, some mi, sec) →
      0 ≤ hour → hour ≤ 23 → 0 ≤ mi → mi ≤ 59 → 0 ≤ sec → sec ≤ 59 →
      -98000000 ≤ now.localDay → now.localDay ≤ 98000000 →
      ∃ z, handler zdb cp sysOff snow "POST" body = Response.ok z tz hd ht cct) := by
  have hrun := handler_run zdb cp sysOff snow body hd ht tz cct tzOff now h1 h2 h3 h4 h5 h6
  rw [dateCandidates_tomorrow cp hd now hT] at hrun
  dsimp only at hrun
  have hty : (tomorrowCandidate now).year = (civilFromDays ((now.plusDays 1).localDay)).1 :=
    rfl
  have htm : (tomorrowCandidate now).month =
      (civilFromDays ((now.plusDays 1).localDay)).2.1 := rfl
  have htd : (tomorrowCandidate now).day =
      (civilFromDays ((now.plusDays 1).localDay)).2.2 := rfl
  have hcd : (tomorrowCandidate now).certDay = true := rfl
  have hpl := plusDays_localDay now
  refine ⟨?_, ?_, ?_⟩
  · rw [hrun]
    cases hpt : parseTimePhrase ht with
    | none =>
        simp only [hpt]
        decide
    | some v =>
        obtain ⟨hour, minute, sec⟩ := v
        simp only [hpt]
        rw [combineFields_eq]
        cases hfo : fromObject (tomorrowCandidate now).year (tomorrowCandidate now).month
            (tomorrowCandidate now).day hour minute sec tzOff with
        | thrown =>
            simp only [hfo]
            decide
        | invalid =>
            simp only [hfo]
            decide
        | built d0 =>
            simp only [hfo]
            split
            · intro hcon
              exact Response.noConfusion hcon
            · intro hcon
              exact Response.noConfusion hcon
  · intro hour mi sec z hpt hok
    rw [hrun] at hok
    simp only [hpt] at hok
    rw [combineFields_eq] at hok
    cases hfo : fromObject (tomorrowCandidate now).year (tomorrowCandidate now).month
        (tomorrowCandidate now).day hour (some mi) sec tzOff with
    | thrown =>
        simp only [hfo] at hok
        exact Response.noConfusion hok
    | invalid =>
        simp only [hfo] at hok
        exact Response.noConfusion hok
    | built d0 =>
        simp only [hfo, hcd, Bool.not_true, Bool.false_and] at hok
        rw [if_neg (by simp)] at hok
        injection hok with e1
        obtain ⟨hv, hoff, hep, hsodm, hrest⟩ :=
          fromObject_built_facts _ _ _ _ _ _ _ _ hfo
        rw [hty, htm, htd, daysFromCivil_civilFromDays ((now.plusDays 1).localDay), hpl]
          at hep
        rw [← e1]
        refine ⟨hoff, hep, ?_⟩
        intro hh
        obtain ⟨hld, hsod, _, _, _⟩ := hrest hh
        rw [hty, htm, htd, daysFromCivil_civilFromDays ((now.plusDays 1).localDay), hpl]
          at hld
        exact ⟨hld, hsod⟩
  · intro hour mi sec hpt hb1 hb2 hb3 hb4 hb5 hb6 hl1 hl2
    have hvymd := civilFromDays_valid (now.localDay + 1)
    have hyb := civilFromDays_year_bounds (now.localDay + 1) (by omega) (by omega)
    have hvf : validFields (tomorrowCandidate now).year (tomorrowCandidate now).month
        (tomorrowCandidate now).day hour mi sec = true := by
      rw [hty, htm, htd, hpl]
      simp only [validFields, Bool.and_eq_true, Bool.or_eq_true, decide_eq_true_eq]
      tauto
    have hfo : fromObject (tomorrowCandidate now).year (tomorrowCandidate now).month
        (tomorrowCandidate now).day hour (some mi) sec tzOff =
        FromObjectResult.built
          ⟨daysFromCivil (tomorrowCandidate now).year (tomorrowCandidate now).month
            (tomorrowCandidate now).day * 86400 + hour * 3600 + mi * 60 + sec - tzOff * 60,
           tzOff⟩ := by
      simp only [fromObject, hvf, if_true]
    refine ⟨⟨daysFromCivil (tomorrowCandidate now).year (tomorrowCandidate now).month
      (tomorrowCandidate now).day * 86400 + hour * 3600 + mi * 60 + sec - tzOff * 60,
      tzOff⟩, ?_⟩
    rw [hrun]
    simp only [hpt]
    rw [combineFields_eq]
    simp only [hfo, hcd, Bool.not_true, Bool.false_and]
    rw [if_neg (by simp)]

/-- C10 witness: a concrete "ToMorrow" request resolving to the next
calendar day at the parsed 2pm. -/
theorem c10_tomorrow_shortcut_witness :
    handler sampleZoneDB emptyChrono 0 0 "POST" (sampleBody "ToMorrow" "2pm") ≠
      Response.badRequest ErrKind.couldNotParseDate ∧
    (⟨1705413600, 0⟩ : ZDT).localDay = (⟨1705330800, 0⟩ : ZDT).localDay + 1 := by
  constructor
  · exact (c10_tomorrow_shortcut sampleZoneDB emptyChrono 0 0
      (sampleBody "ToMorrow" "2pm") "ToMorrow" "2pm" "UTC" "2024-01-15T15:00:00Z" 0
      ⟨1705330800, 0⟩ (by decide) (by decide) (by decide) (by decide) (by decide)
      (by decide) (by decide)).1
  · have h := (c10_tomorrow_shortcut sampleZoneDB emptyChrono 0 0
      (sampleBody "ToMorrow" "2pm") "ToMorrow" "2pm" "UTC" "2024-01-15T15:00:00Z" 0
      ⟨1705330800, 0⟩ (by decide) (by decide) (by decide) (by decide) (by decide)
      (by decide) (by decide)).2.1 14 0 0 ⟨1705413600, 0⟩ (by decide) (by decide)
    exact (h.2.2 (by decide)).1
